import Mathlib

/-!
Shallow embedding of the messaging core of the Bolt-V2 repository.

The persisted schema is the final state produced by the SQL migrations, in
timestamp order; the last two migrations touching the messaging tables are
20250219040356_broken_hall.sql (tables, triggers, the start_conversation
function) and 20250219040917_rustic_scene.sql (the row-level-security
policies in force afterwards).  Client-side operations are embedded from
src/app/messages/[id].tsx (conversation screen) and the conversation-list
screen (src/unnamed/part_002).

Identifiers (uuid) and timestamps (timestamptz) are modelled as Nat.
Tables are lists of rows in insertion order, which is the order a scan
without an ORDER BY clause returns.  A plpgsql function that raises an
error aborts its whole transaction, so a failing call leaves the persisted
state at the input state; fallible operations therefore return Except,
and on error nothing of the attempted writes persists.
-/

namespace Bolt

/-- Row of the conversations table (20250219040356_broken_hall.sql):
id, created_at, updated_at. -/
structure Conversation where
  id : Nat
  created_at : Nat
  updated_at : Nat
  deriving Repr, DecidableEq

/-- Row of the conversation_participants table: id, conversation_id
(references conversations), user_id (references users), with
UNIQUE(conversation_id, user_id). -/
structure ConversationParticipant where
  id : Nat
  conversation_id : Nat
  user_id : Nat
  deriving Repr, DecidableEq

/-- Row of the messages table: id, conversation_id, sender_id, content,
created_at, nullable read_at, CHECK (char_length(trim(content)) > 0). -/
structure Message where
  id : Nat
  conversation_id : Nat
  sender_id : Nat
  content : String
  created_at : Nat
  read_at : Option Nat
  deriving Repr, DecidableEq

/-- Database state: the users table is reduced to its id column (the only
column the messaging core references), the three messaging tables are
lists of rows in insertion order. -/
structure DB where
  users : List Nat
  conversations : List Conversation
  conversation_participants : List ConversationParticipant
  messages : List Message
  deriving Repr, DecidableEq

/-- EXISTS (SELECT 1 FROM conversation_participants WHERE conversation_id = c
AND user_id = u): u is a participant of conversation c. -/
def isParticipant (db : DB) (c u : Nat) : Bool :=
  db.conversation_participants.any (fun p => p.conversation_id == c && p.user_id == u)

/-- Row set of the join inside start_conversation: conversations c JOIN
conversation_participants cp1 ON cp1.conversation_id = c.id JOIN
conversation_participants cp2 ON cp2.conversation_id = c.id WHERE
cp1.user_id = u AND cp2.user_id = v.  The two join legs are independent
rows, so cp1 and cp2 may be the same participant row. -/
def conversationsBetween (db : DB) (u v : Nat) : List Conversation :=
  db.conversations.filter (fun c => isParticipant db c.id u && isParticipant db c.id v)

/-- The lookup inside start_conversation (broken_hall): SELECT c.id FROM
the join above LIMIT 1.  LIMIT 1 without an ORDER BY returns the first row
of the scan. -/
def findConversation (db : DB) (uid other : Nat) : Option Nat :=
  ((conversationsBetween db uid other).head?).map (fun c => c.id)

/-- INSERT INTO conversation_participants (conversation_id, user_id):
checked against the conversations(id) and users(id) foreign keys and the
UNIQUE(conversation_id, user_id) constraint; a violation raises and the
caller aborts. -/
def insertParticipant (db : DB) (pid c u : Nat) : Except Unit DB :=
  if ¬ db.conversations.any (fun cv => cv.id == c) then .error ()
  else if ¬ db.users.contains u then .error ()
  else if db.conversation_participants.any
      (fun p => p.conversation_id == c && p.user_id == u) then .error ()
  else .ok { db with conversation_participants :=
    db.conversation_participants ++ [⟨pid, c, u⟩] }

/-- The create branch of start_conversation: INSERT INTO conversations
DEFAULT VALUES (created_at = updated_at = now()), then the two-row insert
into conversation_participants, first (cNew, uid), then (cNew, other).
The fresh ids produced by gen_random_uuid() are passed as arguments. -/
def createConversation (db : DB) (now cNew p1 p2 uid other : Nat) :
    Except Unit (Nat × DB) :=
  match insertParticipant
      { db with conversations := db.conversations ++ [⟨cNew, now, now⟩] } p1 cNew uid with
  | .error e => .error e
  | .ok db2 =>
    match insertParticipant db2 p2 cNew other with
    | .error e => .error e
    | .ok db3 => .ok (cNew, db3)

/-- start_conversation(other_user_id) from 20250219040356_broken_hall.sql:
look the pair up; if no conversation is found, create one and add the two
participant rows.  uid is auth.uid().  An error inside the function aborts
the transaction, so nothing persists on .error. -/
def start_conversation (db : DB) (now cNew p1 p2 uid other : Nat) :
    Except Unit (Nat × DB) :=
  match findConversation db uid other with
  | some cid => .ok (cid, db)
  | none => createConversation db now cNew p1 p2 uid other

/-- State actually persisted after a call: on error the transaction rolled
back, so the input state; on success the returned state. -/
def persisted (db : DB) (r : Except Unit (Nat × DB)) : DB :=
  match r with
  | .error _ => db
  | .ok (_, db2) => db2

/-- The JavaScript String.prototype.trim used by the client: strips
whitespace characters from both ends of the string. -/
def jsTrim (s : String) : String :=
  String.mk (((s.toList.dropWhile Char.isWhitespace).reverse.dropWhile
    Char.isWhitespace).reverse)

/-- Postgres trim(content): strips space characters (and only spaces) from
both ends, as used by the CHECK constraint content_not_empty. -/
def pgTrim (s : String) : String :=
  String.mk (((s.toList.dropWhile (fun c => c == ' ')).reverse.dropWhile
    (fun c => c == ' ')).reverse)

/-- The UPDATE policies on the conversations table in force after the
final migration: 20250219040917_rustic_scene.sql drops every conversations
policy and recreates only the SELECT policy, so the set of UPDATE policies
is empty. -/
def conversationsUpdatePolicies : List (DB → Nat → Conversation → Bool) := []

/-- Row-level security on UPDATE of conversations: a row may be updated by
uid only if the USING clause of some UPDATE policy accepts it; with no
policy, no row qualifies. -/
def canUpdateConversation (db : DB) (uid : Nat) (c : Conversation) : Bool :=
  conversationsUpdatePolicies.any (fun pol => pol db uid c)

/-- INSERT INTO messages, as mediated by the backend: the row-level-security
WITH CHECK of the final policy (auth.uid() = sender_id AND the caller
participates in the conversation, 20250219040917_rustic_scene.sql), the
foreign keys to conversations(id) and users(id), and the CHECK constraint
char_length(trim(content)) > 0.  On success the row is appended with
read_at null and the AFTER INSERT trigger update_conversation_on_message
runs UPDATE conversations SET updated_at = now() WHERE id =
conversation_id.  The trigger function has no SECURITY DEFINER clause, so
under a client insert that UPDATE executes as the authenticated caller and
is filtered by the conversations row-level security: only rows passing
canUpdateConversation are updated, and after the final migration none
are. -/
def insertMessage (db : DB) (uid mid cid sender : Nat) (content : String)
    (now : Nat) : Except Unit DB :=
  if ¬ (uid == sender && isParticipant db cid uid) then .error ()
  else if ¬ db.conversations.any (fun cv => cv.id == cid) then .error ()
  else if ¬ db.users.contains sender then .error ()
  else if ¬ ((pgTrim content).length > 0) then .error ()
  else
    let db1 : DB :=
      { db with messages := db.messages ++ [⟨mid, cid, sender, content, now, none⟩] }
    .ok { db1 with conversations := db1.conversations.map (fun c =>
      if c.id == cid && canUpdateConversation db uid c then
        { c with updated_at := now } else c) }

/-- Persisted state of a fallible database write: input state on error. -/
def persistedDB (db : DB) (r : Except Unit DB) : DB :=
  match r with
  | .error _ => db
  | .ok db2 => db2

/-- handleSend from src/app/messages/[id].tsx: returns without contacting
the backend when the trimmed compose text is empty (the send button is also
disabled then); otherwise inserts the trimmed content as a message from the
caller.  On a backend error the client only shows a toast, so the persisted
state is unchanged. -/
def handleSend (db : DB) (uid cid mid now : Nat) (newMessage : String) : DB :=
  if jsTrim newMessage = "" then db
  else persistedDB db (insertMessage db uid mid cid uid (jsTrim newMessage) now)

/-- The UPDATE policies on the messages table in force after the final
migration: 20250219040917_rustic_scene.sql drops every messages policy and
recreates only a SELECT policy and an INSERT policy, so the set of UPDATE
policies is empty. -/
def messagesUpdatePolicies : List (DB → Nat → Message → Bool) := []

/-- Row-level security on UPDATE: a row may be updated by uid only if the
USING clause of some UPDATE policy accepts it; with no policy, no row
qualifies. -/
def canUpdateMessage (db : DB) (uid : Nat) (m : Message) : Bool :=
  messagesUpdatePolicies.any (fun pol => pol db uid m)

/-- The markMessageAsRead call of src/app/messages/[id].tsx as executed by
the backend: the client issues UPDATE messages SET read_at = now() WHERE
id = messageId (with no read_at-is-null condition), and row-level security
restricts the UPDATE to rows passing canUpdateMessage; rows that do not
pass are invisible to the UPDATE, which then succeeds while affecting zero
rows (no error is reported to the client). -/
def rlsMarkMessageAsRead (db : DB) (uid t mid : Nat) : DB :=
  { db with messages := db.messages.map (fun m =>
      if m.id == mid && canUpdateMessage db uid m then
        { m with read_at := some t } else m) }

/-- The addressed recipient of a message: a participant of its conversation
other than the sender. -/
def isRecipient (db : DB) (uid : Nat) (m : Message) : Bool :=
  isParticipant db m.conversation_id uid && uid != m.sender_id

/-- The mark-all-read loop of fetchConversation in
src/app/messages/[id].tsx: among the fetched messages of the conversation,
those with null read_at whose sender is not the session user are collected
as unreadMessages, and markMessageAsRead is awaited for each in turn; each
call executes under row-level security (rlsMarkMessageAsRead). -/
def markUnreadMessagesRead (db : DB) (uid t cid : Nat) : DB :=
  ((db.messages.filter (fun m =>
      m.conversation_id == cid && m.read_at == none && m.sender_id != uid)).map
    (fun m => m.id)).foldl (fun s midv => rlsMarkMessageAsRead s uid t midv) db

/-- Insertion step of a stable sort of conversations by updated_at
descending (the .order(updated_at, descending) of the conversation-list
query). -/
def insertByUpdatedAtDesc (c : Conversation) : List Conversation → List Conversation
  | [] => [c]
  | d :: ds => if c.updated_at ≤ d.updated_at then d :: insertByUpdatedAtDesc c ds
               else c :: d :: ds

/-- Stable sort of conversations by updated_at descending. -/
def sortByUpdatedAtDesc : List Conversation → List Conversation
  | [] => []
  | c :: cs => insertByUpdatedAtDesc c (sortByUpdatedAtDesc cs)

/-- One row of the conversation list as assembled by fetchConversations:
conversation id and updated_at, the other participants' user ids, the
latest_message field and the unread count. -/
structure ConvRow where
  id : Nat
  updated_at : Nat
  participants : List Nat
  latest_message : Option Message
  unread_count : Nat
  deriving Repr, DecidableEq

/-- The per-conversation unread-count query of fetchConversations
(src/unnamed/part_002): select id from messages with count, filtered by
.eq conversation_id, .is read_at null, .neq sender_id uid. -/
def unreadCount (db : DB) (uid cid : Nat) : Nat :=
  (db.messages.filter (fun m =>
    m.conversation_id == cid && m.read_at == none && m.sender_id != uid)).length

/-- fetchConversations from the conversation-list screen
(src/unnamed/part_002): the outer select on conversations is restricted by
row-level security to conversations the caller participates in and ordered
by updated_at descending; each row carries the embedded participants
(current user filtered out), the embedded messages of the conversation in
the order the backend returns them without any ORDER BY (table order),
of which the client keeps element 0 as latest_message, and the unread
count. -/
def fetchConversations (db : DB) (uid : Nat) : List ConvRow :=
  (sortByUpdatedAtDesc
      (db.conversations.filter (fun c => isParticipant db c.id uid))).map
    (fun c =>
      { id := c.id
        updated_at := c.updated_at
        participants := ((db.conversation_participants.filter
            (fun p => p.conversation_id == c.id)).map
              (fun p => p.user_id)).filter (fun u => u != uid)
        latest_message := (db.messages.filter
            (fun m => m.conversation_id == c.id)).head?
        unread_count := unreadCount db uid c.id })

/-- The realtime INSERT handler of the conversation screen
(src/app/messages/[id].tsx): setMessages(current => [...current,
payload.new]) — the payload is appended to the local list unconditionally. -/
def onInsertEvent (current : List Message) (payload : Message) : List Message :=
  current ++ [payload]

/-- One interleaving of two concurrent start_conversation transactions
under the backend's READ COMMITTED isolation: T1 (caller a, target b) runs
fully and commits first; T2 (caller b, target a) runs its lookup before T1
commits — so the lookup reads the initial committed state db0 — and then
applies its writes to the state T1 committed.  Neither insert conflicts
with the other transaction's rows under the UNIQUE(conversation_id,
user_id) constraint, because the two transactions use distinct fresh
conversation ids. -/
def raceSchedule (db0 : DB) (now c1 p11 p12 c2 p21 p22 a b : Nat) : DB :=
  let db1 := persisted db0 (start_conversation db0 now c1 p11 p12 a b)
  let r2 : Except Unit (Nat × DB) :=
    match findConversation db0 b a with
    | some cid => .ok (cid, db1)
    | none => createConversation db1 now c2 p21 p22 b a
  persisted db1 r2

/-- State produced by the create branch of start_conversation: the new
conversation row plus the two participant rows, appended to the input
state. -/
def createdState (db : DB) (now cNew p1 p2 uid other : Nat) : DB :=
  { db with
    conversations := db.conversations ++ [⟨cNew, now, now⟩],
    conversation_participants :=
      db.conversation_participants ++ [⟨p1, cNew, uid⟩, ⟨p2, cNew, other⟩] }

/-- Two registered users (ids 1 and 2) with no conversations yet. -/
def exDBEmpty : DB := ⟨[1, 2], [], [], []⟩

/-- A single registered user (id 1) with no conversations. -/
def exDBSolo : DB := ⟨[1], [], [], []⟩

/-- Users 1 and 2 share conversation 1; user 1 sent message 1 at time 10
and user 2 sent message 2 at time 20, both unread; the messages table
holds them in insertion order. -/
def exDBChat : DB :=
  ⟨[1, 2], [⟨1, 0, 20⟩], [⟨1, 1, 1⟩, ⟨2, 1, 2⟩],
    [⟨1, 1, 1, "first", 10, none⟩, ⟨2, 1, 2, "second", 20, none⟩]⟩

/-- exDBChat after user 1 successfully sends message 5 at time 42 as
deployed: the message row is appended, but the trigger's UPDATE of
conversations is filtered by row-level security and matches zero rows, so
the conversation's updated_at stays 20. -/
def exDBChatSent : DB :=
  ⟨[1, 2], [⟨1, 0, 20⟩], [⟨1, 1, 1⟩, ⟨2, 1, 2⟩],
    [⟨1, 1, 1, "first", 10, none⟩, ⟨2, 1, 2, "second", 20, none⟩,
      ⟨5, 1, 1, "hi", 42, none⟩]⟩

/-- Users 1 and 2 share conversation 1 holding one message from user 1
that user 2 already read at time 5. -/
def exDBRead : DB :=
  ⟨[1, 2], [⟨1, 0, 10⟩], [⟨1, 1, 1⟩, ⟨2, 1, 2⟩],
    [⟨1, 1, 1, "hello", 10, some 5⟩]⟩

/-- A realtime insert payload: message 1 of conversation 1 from user 2. -/
def exPayload : Message := ⟨1, 1, 2, "hey", 10, none⟩

/-- A participant list without rows for conversation c never satisfies the
uniqueness probe for (c, u). -/
theorem any_pair_eq_false (l : List ConversationParticipant) (c u : Nat)
    (h : ∀ p ∈ l, p.conversation_id ≠ c) :
    l.any (fun p => p.conversation_id == c && p.user_id == u) = false := by
  rw [List.any_eq_false]
  intro p hp
  simp only [Bool.and_eq_true, beq_iff_eq, not_and]
  intro hc
  exact absurd hc (h p hp)

/-- insertParticipant succeeds and appends the row when the foreign keys
hold and the (conversation, user) pair is not yet present. -/
theorem insertParticipant_eq_ok (db : DB) (pid c u : Nat)
    (h1 : db.conversations.any (fun cv => cv.id == c) = true)
    (h2 : u ∈ db.users)
    (h3 : db.conversation_participants.any
        (fun p => p.conversation_id == c && p.user_id == u) = false) :
    insertParticipant db pid c u =
      .ok { db with conversation_participants :=
        db.conversation_participants ++ [⟨pid, c, u⟩] } := by
  unfold insertParticipant
  rw [if_neg (by simp [h1]), if_neg (by simp [h2]), if_neg (by simp [h3])]

/-- The create branch succeeds for a pair of distinct existing users and a
fresh conversation id, producing exactly the created state. -/
theorem createConversation_eq_ok (db : DB) (now cNew p1 p2 uid other : Nat)
    (hu : uid ∈ db.users)
    (ho : other ∈ db.users)
    (hne : uid ≠ other)
    (hfresh : ∀ p ∈ db.conversation_participants, p.conversation_id ≠ cNew) :
    createConversation db now cNew p1 p2 uid other =
      .ok (cNew, createdState db now cNew p1 p2 uid other) := by
  have e1 : insertParticipant
      { db with conversations := db.conversations ++ [⟨cNew, now, now⟩] } p1 cNew uid =
      .ok { db with
        conversations := db.conversations ++ [⟨cNew, now, now⟩],
        conversation_participants :=
          db.conversation_participants ++ [⟨p1, cNew, uid⟩] } :=
    insertParticipant_eq_ok _ _ _ _ (by simp) hu (any_pair_eq_false _ _ _ hfresh)
  have hneq : (uid == other) = false := beq_eq_false_iff_ne.mpr hne
  have e2 : insertParticipant
      { db with
        conversations := db.conversations ++ [⟨cNew, now, now⟩],
        conversation_participants :=
          db.conversation_participants ++ [⟨p1, cNew, uid⟩] } p2 cNew other =
      .ok { db with
        conversations := db.conversations ++ [⟨cNew, now, now⟩],
        conversation_participants :=
          (db.conversation_participants ++ [⟨p1, cNew, uid⟩]) ++ [⟨p2, cNew, other⟩] } :=
    insertParticipant_eq_ok _ _ _ _ (by simp) ho
      (by
        rw [List.any_append, any_pair_eq_false _ _ _ hfresh]
        simp [hneq])
  unfold createConversation
  rw [e1]
  have step2 : (match insertParticipant
      { db with
        conversations := db.conversations ++ [⟨cNew, now, now⟩],
        conversation_participants :=
          db.conversation_participants ++ [⟨p1, cNew, uid⟩] } p2 cNew other with
    | .error e => (.error e : Except Unit (Nat × DB))
    | .ok db3 => .ok (cNew, db3)) =
      .ok (cNew, createdState db now cNew p1 p2 uid other) := by
    rw [e2]
    unfold createdState
    simp
  exact step2

/-- The create branch aborts with a unique violation when the caller and
the target are the same user: the second participant insert collides with
the first. -/
theorem createConversation_self_eq_error (db : DB) (now cNew p1 p2 uid : Nat)
    (hu : uid ∈ db.users)
    (hfresh : ∀ p ∈ db.conversation_participants, p.conversation_id ≠ cNew) :
    createConversation db now cNew p1 p2 uid uid = .error () := by
  have e1 : insertParticipant
      { db with conversations := db.conversations ++ [⟨cNew, now, now⟩] } p1 cNew uid =
      .ok { db with
        conversations := db.conversations ++ [⟨cNew, now, now⟩],
        conversation_participants :=
          db.conversation_participants ++ [⟨p1, cNew, uid⟩] } :=
    insertParticipant_eq_ok _ _ _ _ (by simp) hu (any_pair_eq_false _ _ _ hfresh)
  have e2 : insertParticipant
      { db with
        conversations := db.conversations ++ [⟨cNew, now, now⟩],
        conversation_participants :=
          db.conversation_participants ++ [⟨p1, cNew, uid⟩] } p2 cNew uid =
      .error () := by
    unfold insertParticipant
    rw [if_neg (by simp), if_neg (by simp [hu]), if_pos (by simp [List.any_append])]
  unfold createConversation
  rw [e1]
  have step2 : (match insertParticipant
      { db with
        conversations := db.conversations ++ [⟨cNew, now, now⟩],
        conversation_participants :=
          db.conversation_participants ++ [⟨p1, cNew, uid⟩] } p2 cNew uid with
    | .error e => (.error e : Except Unit (Nat × DB))
    | .ok db3 => .ok (cNew, db3)) = .error () := by
    rw [e2]
  exact step2

/-- With no UPDATE policy on messages, the deployed mark-read statement
affects zero rows and leaves the state unchanged, whoever the caller is. -/
theorem rlsMarkMessageAsRead_eq_self (db : DB) (uid t mid : Nat) :
    rlsMarkMessageAsRead db uid t mid = db := by
  unfold rlsMarkMessageAsRead canUpdateMessage messagesUpdatePolicies
  simp

/-- Folding the deployed mark-read statement over any list of message ids
changes nothing. -/
theorem foldl_rlsMarkMessageAsRead (uid t : Nat) (l : List Nat) (db : DB) :
    l.foldl (fun s midv => rlsMarkMessageAsRead s uid t midv) db = db := by
  induction l generalizing db with
  | nil => rfl
  | cons x xs ih =>
      rw [List.foldl_cons, rlsMarkMessageAsRead_eq_self]
      exact ih db

/-- C1: the claim states that two concurrent start_conversation calls for
a fresh pair leave exactly one conversations row and exactly two
conversation_participants rows.  The code has no uniqueness constraint on
the participant pair and no serialization of the check-then-insert, so in
the interleaving where both lookups run before either transaction commits
(modelled by raceSchedule) both callers create: starting from two users
with no conversation, the final state holds two conversations that each
contain both users, and four participant rows. -/
theorem concurrent_start_creates_two_conversations :
    (conversationsBetween (raceSchedule exDBEmpty 100 10 11 12 20 21 22 1 2) 1 2).length = 2 ∧
    (raceSchedule exDBEmpty 100 10 11 12 20 21 22 1 2).conversation_participants.length = 4 ∧
    (conversationsBetween exDBEmpty 1 2).length = 0 := by decide

/-- C3: the claim states a message's read state may be updated exactly by
the addressed recipient.  After the final migration the messages table has
no UPDATE policy at all, so row-level security lets no caller update any
message: here user 2 is the addressed recipient of unread message 1 and
their markMessageAsRead statement still changes nothing. -/
theorem mark_read_denied_even_for_recipient :
    (⟨1, 1, 1, "first", 10, none⟩ : Message) ∈ exDBChat.messages ∧
    isRecipient exDBChat 2 ⟨1, 1, 1, "first", 10, none⟩ = true ∧
    canUpdateMessage exDBChat 2 ⟨1, 1, 1, "first", 10, none⟩ = false ∧
    rlsMarkMessageAsRead exDBChat 2 99 1 = exDBChat := by decide

/-- C4: read_at only ever transitions from null to non-null, is never
reverted to null, and once set never changes; marking an already-read
message is a silent no-op that leaves the existing read_at value
unchanged.  This holds of the deployed code, but degenerately: the
mark-read statement executes under row-level security with no UPDATE
policy on messages (see C3), so no mark ever changes any read_at at all —
in particular re-marking message 1 of exDBRead, already read at time 5,
leaves its read_at at 5.  The only write path that remains is the insert,
which always creates the row with read_at null. -/
theorem read_at_transitions (db : DB) (uid t mid : Nat) :
    List.Forall₂ (fun m m2 : Message =>
        (m2.read_at = none → m.read_at = none) ∧
        (m.read_at ≠ none → m2.read_at = m.read_at))
      db.messages (rlsMarkMessageAsRead db uid t mid).messages ∧
    (rlsMarkMessageAsRead db uid t mid).messages = db.messages ∧
    (rlsMarkMessageAsRead exDBRead 2 9 1).messages =
      [⟨1, 1, 1, "hello", 10, some 5⟩] := by
  have h : rlsMarkMessageAsRead db uid t mid = db :=
    rlsMarkMessageAsRead_eq_self db uid t mid
  refine ⟨?_, by rw [h], by decide⟩
  rw [h]
  exact List.forall₂_same.mpr (fun m _ => ⟨fun h2 => h2, fun _ => rfl⟩)

/-- C8: the claim states the latest_message attached to a conversation-list
row is the message with the maximum created_at of the conversation.  The
conversation-list query embeds the messages without any ordering and the
client keeps element 0, i.e. the first row in table order: for
conversation 1 of exDBChat it returns the message created at 10 although
the same conversation holds a message created at 20. -/
theorem latest_message_is_first_table_row :
    (fetchConversations exDBChat 1).map (fun r => r.latest_message) =
      [some ⟨1, 1, 1, "first", 10, none⟩] ∧
    (⟨2, 1, 2, "second", 20, none⟩ : Message) ∈ exDBChat.messages ∧
    (⟨2, 1, 2, "second", 20, none⟩ : Message).conversation_id = 1 ∧
    (⟨1, 1, 1, "first", 10, none⟩ : Message).created_at <
      (⟨2, 1, 2, "second", 20, none⟩ : Message).created_at := by decide

/-- C9: the claim states the realtime insert handler merges by message id,
so duplicate delivery of the same payload leaves the local list as after a
single delivery.  The handler appends the payload unconditionally, so a
duplicate delivery duplicates the message in local state. -/
theorem realtime_insert_handler_duplicates :
    onInsertEvent (onInsertEvent [] exPayload) exPayload = [exPayload, exPayload] ∧
    onInsertEvent (onInsertEvent [] exPayload) exPayload ≠ onInsertEvent [] exPayload := by
  decide

/-- C5: a send whose content is empty or whitespace-only after trimming is
rejected and creates no messages row: the client returns before contacting
the backend when the JS-trimmed compose text is empty, and the backend
CHECK constraint content_not_empty rejects an insert whose content is
empty after the SQL trim, so the message store is unchanged either way. -/
theorem whitespace_send_rejected (db : DB) (uid cid mid sender t : Nat)
    (s c : String) (h1 : jsTrim s = "") (h2 : pgTrim c = "") :
    handleSend db uid cid mid t s = db ∧
    (handleSend db uid cid mid t s).messages = db.messages ∧
    insertMessage db uid mid cid sender c t = .error () := by
  have hs : handleSend db uid cid mid t s = db := by
    unfold handleSend
    rw [if_pos h1]
  refine ⟨hs, by rw [hs], ?_⟩
  unfold insertMessage
  have hlen : ¬ ((pgTrim c).length > 0) := by
    rw [h2]
    decide
  split_ifs <;> rfl

/-- C5 witness: the theorem applied to the chat state with the whitespace
compose text and whitespace content. -/
theorem whitespace_send_rejected_witness :
    jsTrim "   " = "" ∧ pgTrim " " = "" ∧
    (handleSend exDBChat 1 1 5 42 "   " = exDBChat ∧
      (handleSend exDBChat 1 1 5 42 "   ").messages = exDBChat.messages ∧
      insertMessage exDBChat 1 5 1 1 " " 42 = .error ()) :=
  ⟨by decide, by decide,
    whitespace_send_rejected exDBChat 1 1 5 1 42 "   " " " (by decide) (by decide)⟩

/-- C6: the claim states a successful message insert advances the owning
conversation's updated_at to the insert time as a side effect of the
insert itself.  The AFTER INSERT trigger does issue that UPDATE, but the
trigger function has no SECURITY DEFINER clause, so under the client's
authenticated insert the UPDATE is filtered by the conversations row-level
security, which after the final migration has no UPDATE policy: the UPDATE
matches zero rows.  User 1's successful send of message 5 at time 42
appends the message row, yet the conversations table — updated_at
included — is byte-for-byte unchanged, still reading 20. -/
theorem send_does_not_advance_updated_at :
    insertMessage exDBChat 1 5 1 1 "hi" 42 = .ok exDBChatSent ∧
    exDBChatSent.messages = exDBChat.messages ++ [⟨5, 1, 1, "hi", 42, none⟩] ∧
    exDBChatSent.conversations = exDBChat.conversations ∧
    exDBChatSent.conversations.map (fun c => c.updated_at) = [20] ∧
    (20 : Nat) ≠ 42 :=
  ⟨by rfl, by decide, by decide, by decide, by decide⟩

/-- C2: sequential find-or-create contract of start_conversation for a
pair of distinct existing users with fresh generated ids.  If the lookup
join returns a row, its conversation id is returned and the state is
unchanged, and that conversation has both users as participants.  If no
conversation connects the pair, exactly one conversations row and the two
participant rows (caller first, target second) are inserted, the new id is
returned, and a second sequential call returns the same id while changing
nothing. -/
theorem start_conversation_find_or_create (db : DB) (now cNew p1 p2 uid other : Nat)
    (huid : uid ∈ db.users)
    (hother : other ∈ db.users)
    (hne : uid ≠ other)
    (hpfresh : ∀ p ∈ db.conversation_participants, p.conversation_id ≠ cNew)
    (hcfresh : ∀ c ∈ db.conversations, c.id ≠ cNew) :
    (∀ c, (conversationsBetween db uid other).head? = some c →
        start_conversation db now cNew p1 p2 uid other = .ok (c.id, db) ∧
        c ∈ db.conversations ∧ isParticipant db c.id uid = true ∧
        isParticipant db c.id other = true) ∧
    (conversationsBetween db uid other = [] →
        start_conversation db now cNew p1 p2 uid other =
          .ok (cNew, createdState db now cNew p1 p2 uid other) ∧
        ∀ now2 c2 q1 q2,
          start_conversation (createdState db now cNew p1 p2 uid other)
              now2 c2 q1 q2 uid other =
            .ok (cNew, createdState db now cNew p1 p2 uid other)) := by
  constructor
  · intro c hc
    have hmem : c ∈ conversationsBetween db uid other :=
      List.mem_of_mem_head? (by rw [hc]; rfl)
    have hflt := List.mem_filter.mp hmem
    have hpred := hflt.2
    rw [Bool.and_eq_true] at hpred
    refine ⟨?_, hflt.1, hpred.1, hpred.2⟩
    unfold start_conversation findConversation
    rw [hc]
    rfl
  · intro hnil
    have hfind : findConversation db uid other = none := by
      unfold findConversation
      rw [hnil]
      rfl
    have hcreate :=
      createConversation_eq_ok db now cNew p1 p2 uid other huid hother hne hpfresh
    have hstart : start_conversation db now cNew p1 p2 uid other =
        .ok (cNew, createdState db now cNew p1 p2 uid other) := by
      unfold start_conversation
      rw [hfind]
      exact hcreate
    refine ⟨hstart, ?_⟩
    intro now2 c2 q1 q2
    have holdpart : ∀ c u : Nat, c ≠ cNew →
        isParticipant (createdState db now cNew p1 p2 uid other) c u =
          isParticipant db c u := by
      intro c u hcne
      unfold isParticipant createdState
      rw [List.any_append]
      have hnew : ([⟨p1, cNew, uid⟩, ⟨p2, cNew, other⟩] :
          List ConversationParticipant).any
            (fun p => p.conversation_id == c && p.user_id == u) = false := by
        have hne2 : (cNew == c) = false := beq_eq_false_iff_ne.mpr (Ne.symm hcne)
        simp [hne2]
      rw [hnew, Bool.or_false]
    have hnew_uid : isParticipant (createdState db now cNew p1 p2 uid other) cNew uid =
        true := by
      unfold isParticipant createdState
      simp
    have hnew_other : isParticipant (createdState db now cNew p1 p2 uid other) cNew other =
        true := by
      unfold isParticipant createdState
      simp
    have hnil2 := List.filter_eq_nil_iff.mp (by unfold conversationsBetween at hnil; exact hnil)
    have hfilter2 : conversationsBetween (createdState db now cNew p1 p2 uid other)
        uid other = [⟨cNew, now, now⟩] := by
      unfold conversationsBetween
      have hconvs : (createdState db now cNew p1 p2 uid other).conversations =
          db.conversations ++ [⟨cNew, now, now⟩] := rfl
      rw [hconvs, List.filter_append]
      have hold : db.conversations.filter (fun c =>
          isParticipant (createdState db now cNew p1 p2 uid other) c.id uid &&
          isParticipant (createdState db now cNew p1 p2 uid other) c.id other) = [] := by
        rw [List.filter_eq_nil_iff]
        intro c hcmem
        rw [holdpart c.id uid (hcfresh c hcmem), holdpart c.id other (hcfresh c hcmem)]
        exact hnil2 c hcmem
      rw [hold]
      simp [hnew_uid, hnew_other]
    have hfind2 : findConversation (createdState db now cNew p1 p2 uid other) uid other =
        some cNew := by
      unfold findConversation
      rw [hfilter2]
      rfl
    unfold start_conversation
    rw [hfind2]

/-- C2 witness: the theorem applied to two registered users with no prior
conversation; the create branch fires and the second call is idempotent. -/
theorem start_conversation_find_or_create_witness :
    (1 : Nat) ≠ 2 ∧
    ((∀ c, (conversationsBetween exDBEmpty 1 2).head? = some c →
        start_conversation exDBEmpty 50 5 6 7 1 2 = .ok (c.id, exDBEmpty) ∧
        c ∈ exDBEmpty.conversations ∧ isParticipant exDBEmpty c.id 1 = true ∧
        isParticipant exDBEmpty c.id 2 = true) ∧
      (conversationsBetween exDBEmpty 1 2 = [] →
        start_conversation exDBEmpty 50 5 6 7 1 2 =
          .ok (5, createdState exDBEmpty 50 5 6 7 1 2) ∧
        ∀ now2 c2 q1 q2,
          start_conversation (createdState exDBEmpty 50 5 6 7 1 2) now2 c2 q1 q2 1 2 =
            .ok (5, createdState exDBEmpty 50 5 6 7 1 2))) :=
  ⟨by decide,
    start_conversation_find_or_create exDBEmpty 50 5 6 7 1 2 (by decide) (by decide)
      (by decide) (by decide) (by decide)⟩

/-- C10: start_conversation called with other_user_id equal to the caller's
own id.  The lookup's two join legs may bind the same participant row, so
any conversation containing the caller matches: if the caller participates
in at least one conversation, the call returns the id of such a
conversation and inserts nothing.  If the caller participates in none, the
create branch inserts two identical (conversation, user) participant rows,
the second violates UNIQUE(conversation_id, user_id), and the call fails
with the transaction rolled back, persisting no rows. -/
theorem start_conversation_self_call (db : DB) (now cNew p1 p2 uid : Nat)
    (hu : uid ∈ db.users)
    (hpfresh : ∀ p ∈ db.conversation_participants, p.conversation_id ≠ cNew) :
    ((∃ c ∈ db.conversations, isParticipant db c.id uid = true) →
        ∃ c, c ∈ db.conversations ∧ isParticipant db c.id uid = true ∧
          start_conversation db now cNew p1 p2 uid uid = .ok (c.id, db)) ∧
    ((∀ c ∈ db.conversations, isParticipant db c.id uid = false) →
        start_conversation db now cNew p1 p2 uid uid = .error () ∧
        persisted db (start_conversation db now cNew p1 p2 uid uid) = db) := by
  constructor
  · rintro ⟨c0, hc0, hp0⟩
    have hmem : c0 ∈ conversationsBetween db uid uid := by
      unfold conversationsBetween
      exact List.mem_filter.mpr ⟨hc0, by rw [hp0]; rfl⟩
    cases hhead : (conversationsBetween db uid uid).head? with
    | none =>
        rw [List.head?_eq_none_iff] at hhead
        rw [hhead] at hmem
        cases hmem
    | some c =>
        have hmemc : c ∈ conversationsBetween db uid uid :=
          List.mem_of_mem_head? (by rw [hhead]; rfl)
        have hflt := List.mem_filter.mp hmemc
        have hpred := hflt.2
        rw [Bool.and_eq_true] at hpred
        refine ⟨c, hflt.1, hpred.1, ?_⟩
        unfold start_conversation findConversation
        rw [hhead]
        rfl
  · intro hnone
    have hnil : conversationsBetween db uid uid = [] := by
      unfold conversationsBetween
      rw [List.filter_eq_nil_iff]
      intro c hc
      rw [hnone c hc]
      simp
    have hfind : findConversation db uid uid = none := by
      unfold findConversation
      rw [hnil]
      rfl
    have herr : start_conversation db now cNew p1 p2 uid uid = .error () := by
      unfold start_conversation
      rw [hfind]
      exact createConversation_self_eq_error db now cNew p1 p2 uid hu hpfresh
    exact ⟨herr, by rw [herr]; rfl⟩

/-- C10 witness: the theorem applied to a lone registered user with no
conversations; the self-call aborts on the unique violation and persists
nothing. -/
theorem start_conversation_self_call_witness :
    (1 : Nat) ∈ exDBSolo.users ∧
    (((∃ c ∈ exDBSolo.conversations, isParticipant exDBSolo c.id 1 = true) →
        ∃ c, c ∈ exDBSolo.conversations ∧ isParticipant exDBSolo c.id 1 = true ∧
          start_conversation exDBSolo 50 5 6 7 1 1 = .ok (c.id, exDBSolo)) ∧
      ((∀ c ∈ exDBSolo.conversations, isParticipant exDBSolo c.id 1 = false) →
        start_conversation exDBSolo 50 5 6 7 1 1 = .error () ∧
        persisted exDBSolo (start_conversation exDBSolo 50 5 6 7 1 1) = exDBSolo)) :=
  ⟨by decide, start_conversation_self_call exDBSolo 50 5 6 7 1 (by decide) (by decide)⟩

/-- The unread-count query agrees with the specification's description of
the count: messages of the conversation with null read timestamp whose
sender is not the caller. -/
theorem unreadCount_eq_spec (db : DB) (uid cid : Nat) :
    unreadCount db uid cid = (db.messages.filter (fun m =>
      decide (m.conversation_id = cid ∧ m.read_at = none ∧ m.sender_id ≠ uid))).length := by
  unfold unreadCount
  congr 1
  apply List.filter_congr
  intro m _
  rw [Bool.eq_iff_iff]
  simp [and_assoc]

/-- C7 counterexample: the claim states that after user U marks all unread
messages of conversation c read, the unread count shown for c is 0.  In
the deployed code the mark-read statement executes under row-level
security with no UPDATE policy on messages, so the conversation screen's
mark-all loop changes nothing: user 1 sees unread count 1 for
conversation 1, runs the mark-all flow over it, and the count is still 1,
not 0. -/
theorem unread_count_not_cleared :
    (fetchConversations exDBChat 1).map (fun r => r.unread_count) = [1] ∧
    markUnreadMessagesRead exDBChat 1 99 1 = exDBChat ∧
    (fetchConversations (markUnreadMessagesRead exDBChat 1 99 1) 1).map
      (fun r => r.unread_count) = [1] := by decide

/-- C7 amended: every conversation-list row for conversation c carries as
unread_count exactly the number of messages of c with null read_at whose
sender is not the caller; but running the client's mark-all-read flow
changes no message (the mark-read update is blocked by row-level security,
see C3), so afterwards the count shown is the same number, not 0. -/
theorem unread_count_after_mark_all (db : DB) (uid cid t : Nat) :
    (∀ row ∈ fetchConversations db uid, row.id = cid →
        row.unread_count = (db.messages.filter (fun m =>
          decide (m.conversation_id = cid ∧ m.read_at = none ∧
            m.sender_id ≠ uid))).length) ∧
    markUnreadMessagesRead db uid t cid = db ∧
    (∀ row ∈ fetchConversations (markUnreadMessagesRead db uid t cid) uid,
        row.id = cid →
        row.unread_count = (db.messages.filter (fun m =>
          decide (m.conversation_id = cid ∧ m.read_at = none ∧
            m.sender_id ≠ uid))).length) := by
  have hmark : markUnreadMessagesRead db uid t cid = db := by
    unfold markUnreadMessagesRead
    exact foldl_rlsMarkMessageAsRead uid t _ db
  have hproj : ∀ row ∈ fetchConversations db uid, row.id = cid →
      row.unread_count = (db.messages.filter (fun m =>
        decide (m.conversation_id = cid ∧ m.read_at = none ∧
          m.sender_id ≠ uid))).length := by
    intro row hrow hid
    unfold fetchConversations at hrow
    obtain ⟨c, hc, hfc⟩ := List.mem_map.mp hrow
    subst hfc
    have hidc : c.id = cid := hid
    show unreadCount db uid c.id = _
    rw [hidc]
    exact unreadCount_eq_spec db uid cid
  exact ⟨hproj, hmark, by rw [hmark]; exact hproj⟩

end Bolt
